import Mathlib

/-!
Verification of the PPS article web application (`assets/js/app.js`, the
enhanced script).  JavaScript strings are modelled as Lean `String` /
`List Char`; browser-supplied primitives (the HTML fragment parser behind
`innerHTML`, locale-dependent date formatting) appear as explicit function
parameters of the embedded definitions.  JavaScript numbers that arise in
the cache layer (`Date.now()` timestamps, the configured cache duration)
are integers, modelled as `Int`, with `NaN` represented explicitly where
coercions can produce it.
-/

namespace PPS

/-- The `CONFIG` object of `app.js` (lines 150-158):
data path, cache key, cache duration (5 minutes in milliseconds),
search debounce, reading speed, animation duration and topic list. -/
structure Config where
  dataPath : String
  cacheKey : String
  cacheDuration : Int
  searchDebounce : Nat
  wordsPerMinute : Nat
  animationDuration : Nat
  topics : List String

/-- `CONFIG` as written in the source. -/
def CONFIG : Config :=
  ⟨"data/articles.txt", "pps_articles_cache", 5 * 60 * 1000, 300, 200, 300,
   ["all", "Konten", "Berita", "Edukasi"]⟩

/-- JavaScript `v || d` for an optional string `v`: the only falsy string
is the empty string, and an absent field (`undefined`) is falsy. -/
def strOr (v : Option String) (d : String) : String :=
  match v with
  | none => d
  | some s => if s = "" then d else s

/-- JavaScript truthiness of an optional string (used for `article.cover ?`). -/
def strTruthy (v : Option String) : Bool :=
  match v with
  | none => false
  | some s => s != ""

/-- Concatenation of a list of strings; template literals of the source are
embedded as `joinStr` of their literal and interpolated parts. -/
def joinStr : List String → String
  | [] => ""
  | s :: rest => s ++ joinStr rest

/-- One character of `escapeHTML` output: the escaping performed by the
browser when text assigned via `textContent` is read back via `innerHTML`
(`&`, `<`, `>` and non-breaking space become entities). -/
def escapeChar (c : Char) : String :=
  if c = '&' then "&amp;"
  else if c = '<' then "&lt;"
  else if c = '>' then "&gt;"
  else if c = Char.ofNat 160 then "&nbsp;"
  else String.singleton c

/-- `escapeHTML` (app.js lines 182-186): HTML-escape a string by routing it
through a detached div's `textContent`/`innerHTML`. -/
def escapeHTML (str : String) : String :=
  joinStr (str.data.map escapeChar)

/-- `p` contains no `<` character (decidably). -/
def ltFree (p : List Char) : Bool := !(decide ('<' ∈ p))

/-- Hexadecimal digit (uppercase), as produced by `encodeURIComponent`. -/
def hexDigitChar : Nat → Char
  | 0 => '0' | 1 => '1' | 2 => '2' | 3 => '3' | 4 => '4'
  | 5 => '5' | 6 => '6' | 7 => '7' | 8 => '8' | 9 => '9'
  | 10 => 'A' | 11 => 'B' | 12 => 'C' | 13 => 'D' | 14 => 'E' | _ => 'F'

/-- Characters `encodeURIComponent` leaves unescaped. -/
def isUnreservedURI (c : Char) : Bool :=
  c.isAlphanum || c ∈ ['-', '_', '.', '!', '~', '*', Char.ofNat 39, '(', ')']

/-- UTF-8 encoding of one character, as byte values. -/
def utf8Bytes (c : Char) : List Nat :=
  let n := c.toNat
  if n < 128 then [n]
  else if n < 2048 then [192 + n / 64, 128 + n % 64]
  else if n < 65536 then [224 + n / 4096, 128 + n / 64 % 64, 128 + n % 64]
  else [240 + n / 262144, 128 + n / 4096 % 64, 128 + n / 64 % 64, 128 + n % 64]

/-- `%XX` percent-encoding of one byte. -/
def percentEncodeByte (b : Nat) : String :=
  ⟨['%', hexDigitChar (b / 16 % 16), hexDigitChar (b % 16)]⟩

/-- The browser global `encodeURIComponent`: unreserved characters are kept,
every other character is percent-encoded byte by byte. -/
def encodeURIComponent (s : String) : String :=
  joinStr (s.data.map fun c =>
    if isUnreservedURI c then String.singleton c
    else joinStr ((utf8Bytes c).map percentEncodeByte))

/-! ### The forbidden substring `<script` -/

/-- The characters of `script`. -/
def scriptTail : List Char := ['s', 'c', 'r', 'i', 'p', 't']

/-- The characters of the forbidden substring `<script`. -/
def scriptPat : List Char := '<' :: scriptTail

/-- `compat l m` is true when `l` and `m` agree on their common prefix
(one may run out before a mismatch appears). -/
def compat : List Char → List Char → Bool
  | [], _ => true
  | _ :: _, [] => true
  | a :: as, b :: bs => a == b && compat as bs

/-- A template-literal chunk is `litSafe` when every `<` occurring in it is
followed, inside the chunk, by a definite mismatch with `script`; such a
chunk can neither contain `<script` nor contribute the start of one. -/
def litSafe : List Char → Bool
  | [] => true
  | c :: rest => (if c = '<' then !compat scriptTail rest else true) && litSafe rest

/-- A chunk is good when it has no `<` at all (escaped interpolations) or is
a `litSafe` template literal. -/
def GoodChunk (p : List Char) : Prop := ltFree p = true ∨ litSafe p = true

/-- Invariant carried left to right over a chunked string: no occurrence of
`<script` so far, and no pending partial occurrence at the right end. -/
def SafeAcc (s : List Char) : Prop :=
  ¬ (scriptPat <:+: s) ∧ ∀ k, 0 < k → k < 7 → ¬ (scriptPat.take k <:+ s)

/-! ### The DOM fragment model and the sanitizer -/

/-- A node of a parsed HTML fragment: the browser DOM restricted to what the
sanitizer and the serializer observe.  The HTML parser normalizes element
tag names and attribute names to lowercase, which the model assumes. -/
inductive Node where
  | text (s : String)
  | elem (tag : String) (attrs : List (String × String)) (children : List Node)

/-- JavaScript `name.startsWith('on')` on an attribute name. -/
def startsWithOn (name : String) : Bool :=
  ['o', 'n'].isPrefixOf name.data

/-- Effect of `temp.querySelectorAll('script').forEach(s => s.remove())`
(app.js lines 196-197): every `script` element is removed together with its
subtree, at every depth. -/
def removeScripts : List Node → List Node
  | [] => []
  | .text s :: rest => .text s :: removeScripts rest
  | .elem t attrs cs :: rest =>
    if t = "script" then removeScripts rest
    else .elem t attrs (removeScripts cs) :: removeScripts rest

/-- Effect of the attribute pass (app.js lines 200-207): on every element,
every attribute whose name starts with `on` is removed. -/
def stripOnAttrs : List Node → List Node
  | [] => []
  | .text s :: rest => .text s :: stripOnAttrs rest
  | .elem t attrs cs :: rest =>
    .elem t (attrs.filter fun a => !(startsWithOn a.1)) (stripOnAttrs cs) ::
      stripOnAttrs rest

/-- `sanitizeHTML` (app.js lines 191-210) on the parsed fragment: remove all
script elements, then strip all `on*` attributes from remaining elements. -/
def sanitizeHTML (ns : List Node) : List Node :=
  stripOnAttrs (removeScripts ns)

/-- The fragment contains no `script` element at any depth. -/
def noScriptB : List Node → Bool
  | [] => true
  | .text _ :: rest => noScriptB rest
  | .elem t _ cs :: rest => (t != "script") && noScriptB cs && noScriptB rest

/-- No element of the fragment carries an attribute named `on*`. -/
def noOnAttrB : List Node → Bool
  | [] => true
  | .text _ :: rest => noOnAttrB rest
  | .elem _ attrs cs :: rest =>
    attrs.all (fun a => !(startsWithOn a.1)) && noOnAttrB cs && noOnAttrB rest

/-! ### Serialization of a fragment back to markup (`innerHTML` read) -/

/-- Escaping applied to attribute values on serialization
(`&`, non-breaking space and `"`). -/
def escAttrChar (c : Char) : String :=
  if c = '&' then "&amp;"
  else if c = Char.ofNat 160 then "&nbsp;"
  else if c = '"' then "&quot;"
  else String.singleton c

/-- Serialize one attribute value. -/
def escAttr (s : String) : String :=
  joinStr (s.data.map escAttrChar)

/-- Serialize one attribute as ` name="value"`. -/
def serializeAttr (a : String × String) : String :=
  " " ++ a.1 ++ "=\"" ++ escAttr a.2 ++ "\""

/-- Void elements serialize without children and without an end tag. -/
def voidTags : List String :=
  ["area", "base", "br", "col", "embed", "hr", "img", "input", "link",
   "meta", "param", "source", "track", "wbr"]

/-- Elements whose text children serialize without entity escaping. -/
def rawTextTags : List String :=
  ["style", "script", "xmp", "iframe", "noembed", "noframes", "plaintext",
   "noscript"]

/-- Raw text content of a fragment (used below raw-text elements). -/
def rawTextContent : List Node → String
  | [] => ""
  | .text s :: rest => s ++ rawTextContent rest
  | .elem _ _ _ :: rest => rawTextContent rest

/-- HTML fragment serialization, as performed by reading `innerHTML`. -/
def serializeNodes : List Node → String
  | [] => ""
  | .text s :: rest => escapeHTML s ++ serializeNodes rest
  | .elem t attrs cs :: rest =>
    "<" ++ t ++ joinStr (attrs.map serializeAttr) ++ ">" ++
      (if t ∈ voidTags then ""
       else (if t ∈ rawTextTags then rawTextContent cs else serializeNodes cs) ++
         "</" ++ t ++ ">") ++
      serializeNodes rest

/-- The string-to-string `sanitizeHTML` of the source: parse (browser
primitive, passed as `parse`), sanitize the fragment, read back `innerHTML`. -/
def stringSanitizeHTML (parse : String → List Node) (html : String) : String :=
  serializeNodes (sanitizeHTML (parse html))

/-! ### Reading time (`calculateReadingTime`, app.js lines 240-247) -/

/-- The JavaScript regex whitespace class `\s` (also used by `trim`). -/
def isJsWs (c : Char) : Bool :=
  c ∈ [' ', '\t', '\n', '\r', Char.ofNat 11, Char.ofNat 12, Char.ofNat 160,
       Char.ofNat 0x1680, Char.ofNat 0x2000, Char.ofNat 0x2001, Char.ofNat 0x2002,
       Char.ofNat 0x2003, Char.ofNat 0x2004, Char.ofNat 0x2005, Char.ofNat 0x2006,
       Char.ofNat 0x2007, Char.ofNat 0x2008, Char.ofNat 0x2009, Char.ofNat 0x200a,
       Char.ofNat 0x2028, Char.ofNat 0x2029, Char.ofNat 0x202f, Char.ofNat 0x205f,
       Char.ofNat 0x3000, Char.ofNat 0xfeff]

/-- `.replace(/<[^>]*>/g, ' ')`, scanning left to right: after a `<` the
characters up to the first `>` are buffered; on `>` the whole tag becomes
one space; a `<` never followed by `>` stays literally (the regex does not
match there).  The buffer is kept reversed. -/
def stripTagsGo : Option (List Char) → List Char → List Char
  | none, [] => []
  | some buf, [] => buf.reverse
  | none, c :: rest =>
    if c = '<' then stripTagsGo (some [c]) rest else c :: stripTagsGo none rest
  | some buf, c :: rest =>
    if c = '>' then ' ' :: stripTagsGo none rest else stripTagsGo (some (c :: buf)) rest

/-- Strip markup: every `<...>` tag becomes one space. -/
def stripTags (s : List Char) : List Char := stripTagsGo none s

/-- `.replace(/\s+/g, ' ')`: every maximal whitespace run becomes one space;
the flag records whether the previous character was whitespace. -/
def collapseWsGo : Bool → List Char → List Char
  | _, [] => []
  | prevWs, c :: rest =>
    if isJsWs c then
      if prevWs then collapseWsGo true rest else ' ' :: collapseWsGo true rest
    else c :: collapseWsGo false rest

/-- Collapse whitespace runs to single spaces. -/
def collapseWs (s : List Char) : List Char := collapseWsGo false s

/-- JavaScript `String.prototype.trim`. -/
def jsTrim (s : List Char) : List Char :=
  (((s.dropWhile isJsWs).reverse).dropWhile isJsWs).reverse

/-- The `text` local of `calculateReadingTime`: strip markup, collapse
whitespace, trim. -/
def readingText (html : String) : List Char :=
  jsTrim (collapseWs (stripTags html.data))

/-- `text ? text.split(' ').length : 0`: splitting a nonempty string on
single spaces yields one more piece than there are spaces. -/
def wordCount (html : String) : Nat :=
  let t := readingText html
  if t = [] then 0 else t.count ' ' + 1

/-- `calculateReadingTime` (app.js lines 240-247):
`Math.max(1, Math.ceil(words / CONFIG.wordsPerMinute))`; on naturals the
ceiling of the division is `(words + wpm - 1) / wpm`. -/
def calculateReadingTime (html : String) : Nat :=
  max 1 ((wordCount html + (CONFIG.wordsPerMinute - 1)) / CONFIG.wordsPerMinute)

/-- The concrete word lists used by the reading-time test cases: `n` copies
of the one-letter word `a` separated by single spaces. -/
def repeatWord : Nat → List Char
  | 0 => []
  | 1 => ['a']
  | n + 2 => 'a' :: ' ' :: repeatWord (n + 1)

/-! ### The cache layer (`localStorage`) and the data loader -/

/-- JSON values, as produced by `JSON.parse` / `response.json()`.  The only
numbers this program stores are integer timestamps, so numbers are modelled
as integers.  Objects produced by `JSON.parse` have uniquely-named fields. -/
inductive Json where
  | null
  | bool (b : Bool)
  | num (n : Int)
  | str (s : String)
  | arr (elems : List Json)
  | obj (fields : List (String × Json))

/-- A JavaScript value observed by the cache reader: a JSON value or
`undefined` (an absent property). -/
inductive JsVal where
  | undefined
  | val (j : Json)

/-- The string stored under `CONFIG.cacheKey`, modelled by what `JSON.parse`
does with it: it either throws (`unparsable`) or yields a JSON value.
(`JSON.parse (JSON.stringify v) = v` for the JSON values this program
stores, so `setCachedData` produces `parsed` envelopes directly.) -/
inductive StoredString where
  | unparsable
  | parsed (j : Json)

/-- The content of `localStorage` at `CONFIG.cacheKey`; `none` = no entry. -/
def CacheState := Option StoredString

/-- JavaScript property access as used by the destructuring
`const { data, timestamp } = JSON.parse(cached)`: only objects expose these
properties; every other non-null value yields `undefined` (destructuring
`null` itself throws, handled at the call site). -/
def getField (j : Json) (k : String) : JsVal :=
  match j with
  | .obj fields =>
    match fields.find? (fun f => f.1 == k) with
    | some f => .val f.2
    | none => .undefined
  | _ => .undefined

/-- A JavaScript number: an integer or `NaN`. -/
inductive JsNum where
  | nan
  | int (n : Int)

/-- Decimal digits to a natural number, `none` unless all characters are
digits and the list is nonempty. -/
def digitsVal (ds : List Char) : Option Nat :=
  if !ds.isEmpty && ds.all Char.isDigit then
    some (ds.foldl (fun a c => a * 10 + (c.toNat - 48)) 0)
  else none

/-- JavaScript `ToNumber` on strings, restricted to the forms that matter
here: optionally signed decimal integers surrounded by whitespace convert;
the empty (or all-whitespace) string converts to `0`; all other strings
(including fractional or exponent forms, which this program never stores)
are mapped to `NaN`. -/
def strToNumber (s : String) : JsNum :=
  let t := jsTrim s.data
  if t = [] then .int 0
  else
    match t with
    | '-' :: ds =>
      match digitsVal ds with
      | some n => .int (-(n : Int))
      | none => .nan
    | '+' :: ds =>
      match digitsVal ds with
      | some n => .int (n : Int)
      | none => .nan
    | ds =>
      match digitsVal ds with
      | some n => .int (n : Int)
      | none => .nan

/-- JavaScript `ToNumber` of a value, as invoked by `now - timestamp`.
`undefined` and objects give `NaN`; `null`, booleans and numbers convert
directly; strings via `strToNumber`; arrays via their joined string form
(empty array `0`, singleton through its element, longer arrays `NaN`). -/
def toNumber (v : JsVal) : JsNum :=
  match v with
  | .undefined => .nan
  | .val .null => .int 0
  | .val (.bool b) => .int (if b then 1 else 0)
  | .val (.num n) => .int n
  | .val (.str s) => strToNumber s
  | .val (.arr []) => .int 0
  | .val (.arr [j]) => toNumber (.val j)
  | .val (.arr (_ :: _ :: _)) => .nan
  | .val (.obj _) => .nan

/-- JavaScript subtraction `a - b` where `a` is a number and `b` may be
`NaN`. -/
def jsSub (a : Int) (b : JsNum) : JsNum :=
  match b with
  | .nan => .nan
  | .int n => .int (a - n)

/-- JavaScript `a < d`: false whenever `a` is `NaN`. -/
def jsLtNum (a : JsNum) (d : Int) : Bool :=
  match a with
  | .nan => false
  | .int n => decide (n < d)

/-- `getCachedData` (app.js lines 436-456) at time `now`: yields the value
the call returns (JS `null` on a miss) and the storage state afterwards.
The surrounding try/catch makes the function total: a `JSON.parse` throw or
a throwing destructuring of `null` is caught and returns `null` without
touching storage; an entry that survives destructuring but fails the
freshness comparison is removed. -/
def getCachedData (now : Int) (st : CacheState) : JsVal × CacheState :=
  match st with
  | none => (.val .null, none)
  | some .unparsable => (.val .null, some .unparsable)
  | some (.parsed .null) => (.val .null, some (.parsed .null))
  | some (.parsed j) =>
    let data := getField j "data"
    let timestamp := getField j "timestamp"
    if jsLtNum (jsSub now (toNumber timestamp)) CONFIG.cacheDuration then
      (data, some (.parsed j))
    else
      (.val .null, none)

/-- `setCachedData` (app.js lines 461-471) at time `now`: overwrite the
entry with the serialized `{ data, timestamp: Date.now() }` envelope. -/
def setCachedData (now : Int) (data : Json) : CacheState :=
  some (.parsed (.obj [("data", data), ("timestamp", .num now)]))

/-- `clearCache` (app.js lines 476-483). -/
def clearCache (_st : CacheState) : CacheState := none

/-- The `fetch` response observed by `loadArticles`: HTTP success flag,
status, and the result of `response.json()` (`Except.error` = the parse
rejected the body, carrying the thrown message). -/
structure FetchResponse where
  ok : Bool
  status : Nat
  body : Except String Json

/-- Outcome of the single network retrieval a `loadArticles` call may
issue. -/
inductive FetchResult where
  | netError (msg : String)
  | success (r : FetchResponse)

/-- JavaScript truthiness of the value returned by `getCachedData`
(`if (cached) return cached`). -/
def truthy (v : JsVal) : Bool :=
  match v with
  | .undefined => false
  | .val .null => false
  | .val (.bool b) => b
  | .val (.num n) => decide (n ≠ 0)
  | .val (.str s) => decide (s ≠ "")
  | .val (.arr _) => true
  | .val (.obj _) => true

/-- Unwrap a `JsVal` known to be truthy (the `undef` branch is unreachable
under the truthiness guard). -/
def jsValGet : JsVal → Json
  | .undefined => .null
  | .val j => j

/-- What one `loadArticles` call produced: the returned collection or the
thrown error message, the cache state afterwards, and how many network
retrievals were issued. -/
structure LoadOutcome where
  result : Except String Json
  state : CacheState
  fetches : Nat

/-- `loadArticles` (app.js lines 394-431) at time `now` against cache state
`st`, with `net` the behavior the network would exhibit if queried: check
the cache first and return a truthy hit with no fetch; otherwise fetch,
fail on a network error, a non-ok status, an unparsable body or a non-array
body — every failure rethrown as `Gagal memuat data: <cause>` — and on
success write the collection to the cache and return it. -/
def loadArticles (net : FetchResult) (now : Int) (st : CacheState) : LoadOutcome :=
  let cached := (getCachedData now st).1
  let st₁ := (getCachedData now st).2
  if truthy cached then ⟨.ok (jsValGet cached), st₁, 0⟩
  else
    match net with
    | .netError m => ⟨.error ("Gagal memuat data: " ++ m), st₁, 1⟩
    | .success r =>
      if !r.ok then
        ⟨.error ("Gagal memuat data: HTTP error! status: " ++ Nat.repr r.status),
         st₁, 1⟩
      else
        match r.body with
        | .error m => ⟨.error ("Gagal memuat data: " ++ m), st₁, 1⟩
        | .ok (.arr elems) => ⟨.ok (.arr elems), setCachedData now (.arr elems), 1⟩
        | .ok _ =>
          ⟨.error ("Gagal memuat data: Data format invalid: expected array"), st₁, 1⟩

/-! ### The filter engine and the detail-page article selection -/

/-- `String.prototype.includes`. -/
def jsIncludes (s sub : String) : Bool := decide (sub.data <:+: s.data)

/-- `String.prototype.toLowerCase` (ASCII, which covers the topic labels
and queries this application compares). -/
def jsToLower (s : String) : String := ⟨s.data.map Char.toLower⟩

/-- `String.prototype.trim` on `String`. -/
def jsTrimStr (s : String) : String := ⟨jsTrim s.data⟩

/-- An article record, as described by the data model: `id`, `title`,
`topic` and `date` are required strings; `excerpt`, `author`, `cover` and
`content` are optional. -/
structure Article where
  id : String
  title : String
  topic : String
  date : String
  excerpt : Option String
  author : Option String
  cover : Option String
  content : Option String
deriving DecidableEq

/-- The filter of `applyFilters` (app.js lines 628-641): lowercase and trim
the query, then keep the articles whose topic matches the active chip
(`all` matches everything, otherwise exact, case-sensitive) and whose
lowercase title or excerpt contains the query (an empty query matches). -/
def applyFilters (articles : List Article)
    (activeTopicFilter searchQuery : String) : List Article :=
  let query := jsTrimStr (jsToLower searchQuery)
  articles.filter fun article =>
    let matchesTopic :=
      activeTopicFilter == "all" || article.topic == activeTopicFilter
    let matchesSearch :=
      query == "" || jsIncludes (jsToLower article.title) query ||
        jsIncludes (jsToLower (strOr article.excerpt "")) query
    matchesTopic && matchesSearch

/-- The visibility predicate in the words of the specification: the topic
predicate (`activeTopic` is `all` or equals the article topic,
case-sensitively) and the query predicate (trimmed query empty, or the
lowercase query a substring of the lowercase title or lowercase excerpt)
must both hold. -/
def visibleSpec (activeTopic query : String) (a : Article) : Bool :=
  (activeTopic == "all" || a.topic == activeTopic) &&
    (let q := jsTrimStr (jsToLower query)
     q == "" || jsIncludes (jsToLower a.title) q ||
       jsIncludes (jsToLower (strOr a.excerpt "")) q)

/-- The article-selection logic of `initArticleDetail` (app.js lines
711-722): look the requested id up; fall back to the first article when
there is no match; only an empty collection throws. -/
def selectDetailArticle (articleId : Option String)
    (articles : List Article) : Except String Article :=
  match articles.find? (fun a => some a.id == articleId) with
  | some a => .ok a
  | none =>
    match articles with
    | a :: _ => .ok a
    | [] => .error "Tidak ada artikel tersedia. Periksa file data/articles.txt"

/-! ### The template renderers -/

/-- The `coverHTML` of `generateCardHTML` (app.js lines 493-495), as chunks:
empty when `article.cover` is falsy. -/
def cardCoverParts (a : Article) : List String :=
  if strTruthy a.cover then
    ["<img src=\"", escapeHTML (strOr a.cover ""), "\" alt=\"",
     escapeHTML a.title, "\" loading=\"lazy\" />"]
  else [""]

/-- The template literal of `generateCardHTML` (app.js lines 497-518) split
at its interpolations; `fmtDate` is the locale-dependent `formatDate`. -/
def generateCardParts (fmtDate : String → String) (a : Article) : List String :=
  ["\n    <a class=\"card col-4\"\n       href=\"article-detail.html?id=",
   encodeURIComponent a.id,
   "\"\n       data-topic=\"",
   escapeHTML a.topic,
   "\"\n       data-title=\"",
   escapeHTML a.title,
   "\"\n       aria-label=\"Baca artikel ",
   escapeHTML a.title,
   "\">\n      <div class=\"card-media\">"]
  ++ cardCoverParts a ++
  ["</div>\n      <div class=\"card-body\">\n        <div class=\"card-topic\">\n          <span class=\"dot\" aria-hidden=\"true\"></span>\n          ",
   escapeHTML a.topic,
   "\n        </div>\n        <h3 class=\"card-title\">",
   escapeHTML a.title,
   "</h3>\n        <p class=\"card-excerpt\">",
   escapeHTML (strOr a.excerpt ""),
   "</p>\n        <div class=\"card-meta\">\n          <span>📅 ",
   escapeHTML (fmtDate a.date),
   "</span>\n          <span aria-hidden=\"true\">•</span>\n          <span>✏️ ",
   escapeHTML (strOr a.author "Anonim"),
   "</span>\n        </div>\n      </div>\n    </a>\n  "]

/-- `generateCardHTML` (app.js lines 492-519). -/
def generateCardHTML (fmtDate : String → String) (a : Article) : String :=
  joinStr (generateCardParts fmtDate a)

/-- The `coverHTML` of `generateDetailHTML` (app.js lines 525-529). -/
def detailCoverParts (a : Article) : List String :=
  if strTruthy a.cover then
    ["\n    <div class=\"article-cover\">\n      <img src=\"",
     escapeHTML (strOr a.cover ""),
     "\" alt=\"Cover ",
     escapeHTML a.title,
     "\" />\n    </div>\n  "]
  else [""]

/-- The template literal of `generateDetailHTML` (app.js lines 534-598)
split at its interpolations; `parse` is the browser HTML parser used inside
`sanitizeHTML`. -/
def generateDetailParts (fmtDate : String → String)
    (parse : String → List Node) (a : Article) : List String :=
  let readingTime := calculateReadingTime (strOr a.content "")
  let sanitizedContent :=
    stringSanitizeHTML parse (strOr a.content "<p>Konten tidak tersedia.</p>")
  ["\n    <section class=\"hero\" role=\"banner\" aria-label=\"Header artikel\">\n      <div class=\"hero-inner\">\n        <div class=\"hero-kicker\">\n          ARTIKEL • <span style=\"opacity:.9\">TOPIK: ",
   escapeHTML a.topic,
   "\n        </div>\n        <h1 class=\"hero-title\">",
   escapeHTML a.title,
   "</h1>\n        <p class=\"hero-sub\">",
   escapeHTML (strOr a.excerpt ""),
   "</p>\n      </div>\n    </section>\n\n    <div class=\"article-shell\">\n      <article class=\"article\" role=\"main\">\n        "]
  ++ detailCoverParts a ++
  ["\n\n        <header class=\"article-head\">\n          <div class=\"meta-bar\">\n            <span class=\"badge\">\n              <span class=\"dot\" aria-hidden=\"true\"></span>\n              ",
   escapeHTML a.topic,
   "\n            </span>\n            <span>📅 ",
   escapeHTML (fmtDate a.date),
   "</span>\n            <span>✏️ ",
   escapeHTML (strOr a.author "Anonim"),
   "</span>\n            <span>⏱️ ",
   Nat.repr readingTime,
   " menit baca</span>\n          </div>\n\n          <h1 class=\"article-title\">",
   escapeHTML a.title,
   "</h1>\n        </header>\n\n        <section class=\"article-content\">\n          ",
   sanitizedContent,
   "\n        </section>\n      </article>\n\n      <aside class=\"aside\" role=\"complementary\" aria-label=\"Informasi tambahan\">\n        <div class=\"panel\">\n          <h4>Info Artikel</h4>\n          <div style=\"padding: 4px 10px;\">\n            <div style=\"margin-bottom: 8px;\">\n              <strong>Topik:</strong> ",
   escapeHTML a.topic,
   "\n            </div>\n            <div style=\"margin-bottom: 8px;\">\n              <strong>Tanggal:</strong> ",
   escapeHTML (fmtDate a.date),
   "\n            </div>\n            <div style=\"margin-bottom: 8px;\">\n              <strong>Penulis:</strong> ",
   escapeHTML (strOr a.author "Anonim"),
   "\n            </div>\n            <div>\n              <strong>Waktu Baca:</strong> ",
   Nat.repr readingTime,
   " menit\n            </div>\n          </div>\n        </div>\n\n        <div class=\"panel\">\n          <h4>Navigasi</h4>\n          <a href=\"article-list.html\">← Kembali ke daftar</a>\n          <a href=\"#\" onclick=\"window.print(); return false;\">🖨️ Cetak artikel</a>\n          <a href=\"#\"\n             onclick=\"navigator.share?.(\x7btitle: \x27",
   escapeHTML a.title,
   "\x27, url: window.location.href\x7d); return false;\">\n             📤 Bagikan\n          </a>\n        </div>\n      </aside>\n    </div>\n  "]

/-- `generateDetailHTML` (app.js lines 524-599). -/
def generateDetailHTML (fmtDate : String → String)
    (parse : String → List Node) (a : Article) : String :=
  joinStr (generateDetailParts fmtDate parse a)

/-- The raw attack string of the specification's test property. -/
def evilString : String := "<script>alert(1)</script>"

/-- An article whose every scalar field is the raw attack string and whose
content is the attack string as well. -/
def evilArticle : Article :=
  ⟨evilString, evilString, evilString, evilString,
   some evilString, some evilString, some evilString, some evilString⟩

/-- A concrete browser-parser table for the witnesses: the attack string
parses to a `script` element with the call as text content; everything else
(in particular the serialized empty fragment) parses to the empty
fragment. -/
def tableParse : String → List Node := fun s =>
  if s = evilString then [Node.elem "script" [] [Node.text "alert(1)"]] else []

/-- A concrete stand-in for the locale-dependent `formatDate`. -/
def idFmtDate : String → String := fun s => s

/-- The two articles of the specification's end-to-end scenarios. -/
def artA1 : Article := ⟨"a1", "Gempa", "Berita", "2024-01-01", none, none, none, none⟩

/-- Second scenario article. -/
def artA2 : Article :=
  ⟨"a2", "Fisika Dasar", "Edukasi", "2024-01-02", none, none, none, none⟩

/-- Did `loadArticles` throw? -/
def isError (r : Except String Json) : Bool :=
  match r with
  | .error _ => true
  | .ok _ => false

/-- The failure condition in the words of claim C6: the network retrieval
errors, the response status is non-success, or the body does not decode to
an ordered sequence of records. -/
def loadFailCond (net : FetchResult) : Bool :=
  match net with
  | .netError _ => true
  | .success r =>
    !r.ok ||
      (match r.body with
       | .error _ => true
       | .ok (.arr _) => false
       | .ok _ => true)

/-! ### Theorems -/

theorem data_joinStr (ps : List String) :
    (joinStr ps).data = (ps.map String.data).flatten := by
  induction ps with
  | nil => rfl
  | cons s rest ih => simp [joinStr, String.data_append, ih]

theorem ltFree_iff {p : List Char} : ltFree p = true ↔ '<' ∉ p := by
  simp [ltFree]

theorem ltFree_nil : ltFree [] = true := by decide

theorem escapeChar_ne_lt (c : Char) : '<' ∉ (escapeChar c).data := by
  by_cases h1 : c = '&'
  · subst h1; decide
  by_cases h2 : c = '<'
  · subst h2; decide
  by_cases h3 : c = '>'
  · subst h3; decide
  by_cases h4 : c = Char.ofNat 160
  · subst h4; decide
  · rw [escapeChar, if_neg h1, if_neg h2, if_neg h3, if_neg h4]
    intro hmem
    simp only [String.singleton, String.push, show ("".data : List Char) = [] from rfl,
      List.nil_append, List.mem_singleton] at hmem
    exact h2 hmem.symm

theorem ltFree_escapeHTML (s : String) : ltFree (escapeHTML s).data = true := by
  rw [ltFree_iff]
  intro hmem
  rw [escapeHTML, data_joinStr] at hmem
  rw [List.mem_flatten] at hmem
  obtain ⟨l, hl, hcl⟩ := hmem
  simp only [List.map_map, List.mem_map] at hl
  obtain ⟨c, _, rfl⟩ := hl
  exact escapeChar_ne_lt c hcl

theorem hexDigitChar_ne_lt (n : Nat) : hexDigitChar n ≠ '<' := by
  unfold hexDigitChar
  split <;> decide

theorem ltFree_encodeURIComponent (s : String) :
    ltFree (encodeURIComponent s).data = true := by
  rw [ltFree_iff]
  intro hmem
  rw [encodeURIComponent, data_joinStr, List.mem_flatten] at hmem
  obtain ⟨l, hl, hcl⟩ := hmem
  simp only [List.map_map, List.mem_map] at hl
  obtain ⟨c, _, rfl⟩ := hl
  simp only [Function.comp_apply] at hcl
  split at hcl
  · next hu =>
    simp only [String.singleton, String.push, show ("".data : List Char) = [] from rfl,
      List.nil_append, List.mem_singleton] at hcl
    subst hcl
    exact absurd hu (by decide)
  · rw [data_joinStr, List.mem_flatten] at hcl
    obtain ⟨l2, hl2, hcl2⟩ := hcl
    simp only [List.map_map, List.mem_map] at hl2
    obtain ⟨b, _, rfl⟩ := hl2
    simp only [Function.comp_apply, percentEncodeByte] at hcl2
    have hcl3 : '<' ∈ ['%', hexDigitChar (b / 16 % 16), hexDigitChar (b % 16)] := hcl2
    simp only [List.mem_cons, List.not_mem_nil, or_false] at hcl3
    rcases hcl3 with h | h | h
    · exact absurd h (by decide)
    · exact hexDigitChar_ne_lt _ h.symm
    · exact hexDigitChar_ne_lt _ h.symm

theorem digitChar_ne_lt (n : Nat) : Nat.digitChar n ≠ '<' := by
  by_cases h : n < 16
  · interval_cases n <;> decide
  · rw [Nat.digitChar]
    repeat rw [if_neg (by omega)]
    decide

theorem toDigitsCore_ne_lt (fuel : Nat) :
    ∀ (n : Nat) (ds : List Char), (∀ c ∈ ds, c ≠ '<') →
      ∀ c ∈ Nat.toDigitsCore 10 fuel n ds, c ≠ '<' := by
  induction fuel with
  | zero =>
    intro n ds h c hc
    rw [Nat.toDigitsCore] at hc
    exact h c hc
  | succ fuel ih =>
    intro n ds h c hc
    rw [Nat.toDigitsCore] at hc
    split at hc
    · rcases List.mem_cons.mp hc with rfl | hmem
      · exact digitChar_ne_lt _
      · exact h c hmem
    · refine ih _ _ ?_ c hc
      intro c2 hc2
      rcases List.mem_cons.mp hc2 with rfl | hmem
      · exact digitChar_ne_lt _
      · exact h c2 hmem

theorem ltFree_natRepr (n : Nat) : ltFree (Nat.repr n).data = true := by
  rw [ltFree_iff]
  intro hmem
  have : ∀ c ∈ Nat.toDigits 10 n, c ≠ '<' := by
    rw [Nat.toDigits]
    exact toDigitsCore_ne_lt _ _ _ (by intro c hc; cases hc)
  rw [Nat.repr] at hmem
  exact this _ hmem rfl

theorem litSafe_tail {c : Char} {rest : List Char} (h : litSafe (c :: rest) = true) :
    litSafe rest = true := by
  rw [litSafe, Bool.and_eq_true] at h
  exact h.2

theorem compatOfPrefixAgreement : ∀ {l m : List Char}, l <+: m → compat l m = true := by
  intro l
  induction l with
  | nil => intro m _; rfl
  | cons a as ih =>
    intro m hp
    match m with
    | [] => exact absurd (List.prefix_nil.mp hp) (by simp)
    | b :: bs =>
      obtain ⟨hab, hp2⟩ := List.cons_prefix_cons.mp hp
      simp [compat, hab, ih hp2]

theorem lt_mem_scriptPat_take {k : Nat} (hk : 0 < k) : '<' ∈ scriptPat.take k := by
  match k, hk with
  | j + 1, _ =>
    rw [scriptPat, List.take_succ_cons]
    exact List.mem_cons_self _ _

/-- A `litSafe` chunk has no nonempty suffix that is a prefix of `<script`. -/
theorem litSafe_no_take_suffix :
    ∀ (p : List Char), litSafe p = true →
      ∀ k, 0 < k → k ≤ 7 → ¬ (scriptPat.take k <:+ p) := by
  intro p
  induction p with
  | nil =>
    intro _ k hk _ hsuf
    rw [List.suffix_nil] at hsuf
    have := congrArg List.length hsuf
    simp only [List.length_take, List.length_nil, scriptPat, scriptTail] at this
    simp at this
    omega
  | cons c rest ih =>
    intro h k hk hk7 hsuf
    rcases List.suffix_cons_iff.mp hsuf with heq | hsuf2
    · interval_cases k <;>
        (simp only [scriptPat, scriptTail, List.take_succ_cons, List.take_zero,
          List.take_nil] at heq;
         injection heq with h1 h2; subst h1; subst h2; exact absurd h (by decide))
    · exact ih (litSafe_tail h) k hk hk7 hsuf2

/-- A `litSafe` chunk does not contain `<script`. -/
theorem litSafe_no_pat_occurrence :
    ∀ (p : List Char), litSafe p = true → ¬ (scriptPat <:+: p) := by
  intro p
  induction p with
  | nil =>
    intro _ hinf
    rw [List.infix_nil] at hinf
    exact absurd (congrArg List.length hinf) (by decide)
  | cons c rest ih =>
    intro h hinf
    rcases List.infix_cons_iff.mp hinf with hpre | hinf2
    · rw [scriptPat] at hpre
      obtain ⟨hc, hpre2⟩ := List.cons_prefix_cons.mp hpre
      subst hc
      have hcompat := compatOfPrefixAgreement hpre2
      rw [litSafe, if_pos rfl, hcompat, Bool.and_eq_true] at h
      exact absurd h.1 (by decide)
    · exact ih (litSafe_tail h) hinf2

/-- An `ltFree` chunk does not contain `<script`. -/
theorem ltFree_no_pat_occurrence {p : List Char} (h : ltFree p = true) :
    ¬ (scriptPat <:+: p) := by
  intro hinf
  exact (ltFree_iff.mp h) (hinf.subset (by decide))

/-- An `ltFree` chunk has no suffix that is a nonempty prefix of `<script`. -/
theorem ltFree_no_take_suffix {p : List Char} (h : ltFree p = true)
    {k : Nat} (hk : 0 < k) : ¬ (scriptPat.take k <:+ p) := by
  intro hsuf
  exact (ltFree_iff.mp h) (hsuf.subset (lt_mem_scriptPat_take hk))

/-- Decomposition of a suffix of an append. -/
theorem suffix_append_split {α : Type} {t s p : List α} (h : t <:+ s ++ p) :
    t <:+ p ∨ ∃ t₁, t = t₁ ++ p ∧ t₁ <:+ s := by
  induction s with
  | nil => exact Or.inl h
  | cons c s' ih =>
    rw [List.cons_append] at h
    rcases List.suffix_cons_iff.mp h with heq | hsuf
    · exact Or.inr ⟨c :: s', by rw [heq, List.cons_append], List.suffix_refl _⟩
    · rcases ih hsuf with h1 | ⟨t₁, ht, hs⟩
      · exact Or.inl h1
      · exact Or.inr ⟨t₁, ht, List.suffix_cons_iff.mpr (Or.inr hs)⟩

/-- Decomposition of an infix of an append: it sits in the left part, in the
right part, or spans the boundary. -/
theorem infix_append_split {α : Type} {t s p : List α} (h : t <:+: s ++ p) :
    t <:+: s ∨ t <:+: p ∨
      ∃ k, 0 < k ∧ k < t.length ∧ t.take k <:+ s ∧ t.drop k <+: p := by
  induction s with
  | nil => exact Or.inr (Or.inl h)
  | cons c s' ih =>
    rw [List.cons_append] at h
    rcases List.infix_cons_iff.mp h with hpre | hinf
    · rw [← List.cons_append] at hpre
      by_cases hlen : t.length ≤ (c :: s').length
      · exact Or.inl
          ((List.prefix_of_prefix_length_le hpre (List.prefix_append _ _) hlen).isInfix)
      · push_neg at hlen
        obtain ⟨r, hr⟩ :=
          List.prefix_of_prefix_length_le (List.prefix_append _ _) hpre (Nat.le_of_lt hlen)
        refine Or.inr (Or.inr ⟨(c :: s').length, by simp, by omega, ?_, ?_⟩)
        · rw [← hr, List.take_left]
        · rw [← hr, List.drop_left]
          rw [← hr] at hpre
          exact (List.prefix_append_right_inj _).mp hpre
    · rcases ih hinf with h1 | h1 | ⟨k, hk0, hkl, hks, hkp⟩
      · exact Or.inl (List.infix_cons h1)
      · exact Or.inr (Or.inl h1)
      · exact Or.inr (Or.inr ⟨k, hk0, hkl, List.suffix_cons_iff.mpr (Or.inr hks), hkp⟩)

theorem safeAcc_nil : SafeAcc [] :=
  ⟨litSafe_no_pat_occurrence [] rfl,
   fun k hk hk7 => litSafe_no_take_suffix [] rfl k hk (by omega)⟩

theorem safeAcc_append {s p : List Char} (hs : SafeAcc s) (hp : GoodChunk p) :
    SafeAcc (s ++ p) := by
  constructor
  · intro hinf
    rcases infix_append_split hinf with h1 | h1 | ⟨k, hk0, hkl, hks, hkp⟩
    · exact hs.1 h1
    · rcases hp with hf | hl
      · exact ltFree_no_pat_occurrence hf h1
      · exact litSafe_no_pat_occurrence p hl h1
    · have hkl7 : k < 7 := by
        have h7 : scriptPat.length = 7 := by decide
        omega
      exact hs.2 k hk0 hkl7 hks
  · intro k hk0 hk7 hsuf
    rcases suffix_append_split hsuf with h1 | ⟨t₁, ht, hts⟩
    · rcases hp with hf | hl
      · exact ltFree_no_take_suffix hf hk0 h1
      · exact litSafe_no_take_suffix p hl k hk0 (by omega) h1
    · by_cases ht1 : t₁ = []
      · subst ht1
        rw [List.nil_append] at ht
        have hdanger : scriptPat.take k <:+ p := by
          rw [ht]
        rcases hp with hf | hl
        · exact ltFree_no_take_suffix hf hk0 hdanger
        · exact litSafe_no_take_suffix p hl k hk0 (by omega) hdanger
      · have hj : t₁ <+: scriptPat.take k := ⟨p, ht.symm⟩
        have ht1take : t₁ = (scriptPat.take k).take t₁.length :=
          List.prefix_iff_eq_take.mp hj
        rw [List.take_take] at ht1take
        have hjlen : 0 < t₁.length := List.length_pos.mpr ht1
        exact hs.2 (min t₁.length k) (by omega) (by omega) (ht1take ▸ hts)

theorem safeAcc_append_flatten :
    ∀ (parts : List (List Char)) (s : List Char), SafeAcc s →
      (∀ p ∈ parts, GoodChunk p) → SafeAcc (s ++ parts.flatten) := by
  intro parts
  induction parts with
  | nil => intro s hs _; simpa using hs
  | cons p rest ih =>
    intro s hs hg
    rw [List.flatten_cons, ← List.append_assoc]
    exact ih _ (safeAcc_append hs (hg p (List.mem_cons_self _ _)))
      (fun q hq => hg q (List.mem_cons_of_mem _ hq))

/-- A string assembled from good chunks never contains `<script`. -/
theorem noScriptSub_of_goodChunks (parts : List String)
    (h : ∀ p ∈ parts, GoodChunk p.data) :
    ¬ (scriptPat <:+: (joinStr parts).data) := by
  rw [data_joinStr]
  have hall : ∀ p ∈ parts.map String.data, GoodChunk p := by
    intro p hp
    obtain ⟨q, hq, rfl⟩ := List.mem_map.mp hp
    exact h q hq
  have := safeAcc_append_flatten (parts.map String.data) [] safeAcc_nil hall
  rw [List.nil_append] at this
  exact this.1

theorem noScriptB_removeScripts : ∀ ns, noScriptB (removeScripts ns) = true := by
  intro ns
  induction ns using removeScripts.induct <;> simp_all [removeScripts, noScriptB]

theorem removeScripts_of_noScriptB :
    ∀ ns, noScriptB ns = true → removeScripts ns = ns := by
  intro ns
  induction ns using removeScripts.induct <;> simp_all [removeScripts, noScriptB]

theorem noScriptB_stripOnAttrs :
    ∀ ns, noScriptB (stripOnAttrs ns) = noScriptB ns := by
  intro ns
  induction ns using stripOnAttrs.induct <;> simp_all [stripOnAttrs, noScriptB]

theorem noOnAttrB_stripOnAttrs :
    ∀ ns, noOnAttrB (stripOnAttrs ns) = true := by
  intro ns
  induction ns using stripOnAttrs.induct <;>
    simp_all [stripOnAttrs, noOnAttrB, List.all_eq_true, List.mem_filter]

theorem stripOnAttrs_idem :
    ∀ ns, stripOnAttrs (stripOnAttrs ns) = stripOnAttrs ns := by
  intro ns
  induction ns using stripOnAttrs.induct <;>
    simp_all [stripOnAttrs, List.filter_filter]

theorem sanitizeHTML_idem (ns : List Node) :
    sanitizeHTML (sanitizeHTML ns) = sanitizeHTML ns := by
  rw [sanitizeHTML, sanitizeHTML]
  rw [removeScripts_of_noScriptB (stripOnAttrs (removeScripts ns))
    (by rw [noScriptB_stripOnAttrs]; exact noScriptB_removeScripts _)]
  exact stripOnAttrs_idem _

theorem noScriptB_sanitizeHTML (ns : List Node) :
    noScriptB (sanitizeHTML ns) = true := by
  rw [sanitizeHTML, noScriptB_stripOnAttrs]
  exact noScriptB_removeScripts _

theorem noOnAttrB_sanitizeHTML (ns : List Node) :
    noOnAttrB (sanitizeHTML ns) = true :=
  noOnAttrB_stripOnAttrs _

/-- Ceiling division on naturals agrees with the rational ceiling. -/
theorem ceilDiv_eq_rat_ceil (w m : Nat) (hm : 0 < m) :
    (((w + m - 1) / m : Nat) : ℤ) = ⌈(w : ℚ) / (m : ℚ)⌉ := by
  have hmq : (0 : ℚ) < (m : ℚ) := by exact_mod_cast hm
  have hdm := Nat.div_add_mod (w + m - 1) m
  have hlt : (w + m - 1) % m < m := Nat.mod_lt _ hm
  set q := (w + m - 1) / m with hq
  have hA : m * q + 1 ≤ w + m := by omega
  have h1 : w ≤ m * q := by omega
  have hAq : (m : ℚ) * q + 1 ≤ (w : ℚ) + m := by exact_mod_cast hA
  have h1q : (w : ℚ) ≤ (m : ℚ) * q := by exact_mod_cast h1
  refine le_antisymm ?_ ?_
  · have hlt2 : ((q : ℤ) - 1 : ℤ) < ⌈(w : ℚ) / (m : ℚ)⌉ := by
      refine Int.lt_ceil.mpr ?_
      push_cast
      rw [lt_div_iff₀ hmq]
      nlinarith
    omega
  · refine Int.ceil_le.mpr ?_
    rw [div_le_iff₀ hmq]
    push_cast
    nlinarith

theorem goodChunks_card (fmtDate : String → String) (a : Article) :
    ∀ p ∈ generateCardParts fmtDate a, GoodChunk p.data := by
  intro p hp
  rw [generateCardParts] at hp
  rcases List.mem_append.mp hp with hp2 | hp3
  · rcases List.mem_append.mp hp2 with hp4 | hp5
    · simp only [List.mem_cons, List.not_mem_nil, or_false] at hp4
      rcases hp4 with rfl | rfl | rfl | rfl | rfl | rfl | rfl | rfl | rfl <;>
        first
          | exact Or.inl (ltFree_encodeURIComponent _)
          | exact Or.inl (ltFree_escapeHTML _)
          | exact Or.inr (by decide)
    · rw [cardCoverParts] at hp5
      split at hp5 <;> simp only [List.mem_cons, List.not_mem_nil, or_false] at hp5
      · rcases hp5 with rfl | rfl | rfl | rfl | rfl <;>
          first
            | exact Or.inl (ltFree_escapeHTML _)
            | exact Or.inr (by decide)
      · subst hp5
        exact Or.inl (by decide)
  · simp only [List.mem_cons, List.not_mem_nil, or_false] at hp3
    rcases hp3 with rfl | rfl | rfl | rfl | rfl | rfl | rfl | rfl | rfl | rfl | rfl <;>
      first
        | exact Or.inl (ltFree_escapeHTML _)
        | exact Or.inr (by decide)

set_option maxRecDepth 40000 in
theorem goodChunks_detail (fmtDate : String → String)
    (parse : String → List Node) (a : Article)
    (hc : litSafe (stringSanitizeHTML parse
      (strOr a.content "<p>Konten tidak tersedia.</p>")).data = true) :
    ∀ p ∈ generateDetailParts fmtDate parse a, GoodChunk p.data := by
  intro p hp
  rw [generateDetailParts] at hp
  rcases List.mem_append.mp hp with hp2 | hp3
  · rcases List.mem_append.mp hp2 with hp4 | hp5
    · simp only [List.mem_cons, List.not_mem_nil, or_false] at hp4
      rcases hp4 with rfl | rfl | rfl | rfl | rfl | rfl | rfl <;>
        first
          | exact Or.inl (ltFree_escapeHTML _)
          | exact Or.inr (by decide)
    · rw [detailCoverParts] at hp5
      split at hp5 <;> simp only [List.mem_cons, List.not_mem_nil, or_false] at hp5
      · rcases hp5 with rfl | rfl | rfl | rfl | rfl <;>
          first
            | exact Or.inl (ltFree_escapeHTML _)
            | exact Or.inr (by decide)
      · subst hp5
        exact Or.inl (by decide)
  · simp only [List.mem_cons, List.not_mem_nil, or_false] at hp3
    rcases hp3 with
      rfl | rfl | rfl | rfl | rfl | rfl | rfl | rfl | rfl | rfl | rfl | rfl |
      rfl | rfl | rfl | rfl | rfl | rfl | rfl | rfl | rfl | rfl | rfl <;>
      first
        | exact Or.inl (ltFree_escapeHTML _)
        | exact Or.inl (ltFree_natRepr _)
        | exact Or.inr hc
        | exact Or.inr (by decide)

/-! ### Helper lemmas and concrete inputs for the claim theorems -/

theorem infix_joinStr_of_mem {t : List Char} {p : String} {parts : List String}
    (hp : p ∈ parts) (h : t <:+: p.data) : t <:+: (joinStr parts).data := by
  induction parts with
  | nil => cases hp
  | cons q rest ih =>
    rw [show joinStr (q :: rest) = q ++ joinStr rest from rfl, String.data_append]
    rcases List.mem_cons.mp hp with rfl | hmem
    · exact h.trans ⟨[], (joinStr rest).data, by simp⟩
    · exact (ih hmem).trans ⟨q.data, [], by simp⟩

/-- Reading an entry freshly written by `setCachedData`. -/
theorem getCachedData_setCachedData (t₀ t₁ : Int) (d : Json) :
    getCachedData t₁ (setCachedData t₀ d) =
      if t₁ - t₀ < CONFIG.cacheDuration then (.val d, setCachedData t₀ d)
      else (.val .null, none) := by
  by_cases h : t₁ - t₀ < CONFIG.cacheDuration
  · simp [getCachedData, setCachedData, getField, List.find?, toNumber, jsSub,
      jsLtNum, h]
  · simp [getCachedData, setCachedData, getField, List.find?, toNumber, jsSub,
      jsLtNum, h]

/-! ### Claim theorems -/

/-- Claim C1: for every input string, the fragment whose serialization
`sanitizeHTML` returns contains no script element and no attribute whose
name begins with `on` on any element; and sanitization is idempotent —
under the hypothesis that re-parsing the sanitized markup yields the
sanitized fragment back, which is how the browser parser behaves on the
markup the claim ranges over (inputs whose only unsafe constructs are
scripts and event-handler attributes). -/
theorem sanitizeHTML_safe_and_idempotent (parse : String → List Node) (x : String)
    (hrt : parse (stringSanitizeHTML parse x) = sanitizeHTML (parse x)) :
    noScriptB (sanitizeHTML (parse x)) = true ∧
      noOnAttrB (sanitizeHTML (parse x)) = true ∧
      stringSanitizeHTML parse (stringSanitizeHTML parse x) =
        stringSanitizeHTML parse x := by
  refine ⟨noScriptB_sanitizeHTML _, noOnAttrB_sanitizeHTML _, ?_⟩
  conv_lhs => rw [stringSanitizeHTML, hrt, sanitizeHTML_idem]
  rw [stringSanitizeHTML]

/-- Witness for C1 at the attack string, with the concrete parser table. -/
theorem sanitizeHTML_safe_and_idempotent_witness :
    noScriptB (sanitizeHTML (tableParse evilString)) = true ∧
      noOnAttrB (sanitizeHTML (tableParse evilString)) = true ∧
      stringSanitizeHTML tableParse (stringSanitizeHTML tableParse evilString) =
        stringSanitizeHTML tableParse evilString :=
  sanitizeHTML_safe_and_idempotent tableParse evilString (by
    simp [stringSanitizeHTML, sanitizeHTML, tableParse, evilString,
      removeScripts, stripOnAttrs, serializeNodes])

/-- Claim C2: for every article record (and every behavior of the
locale-dependent date formatter), the markup of `generateCardHTML` and
`generateDetailHTML` contains no substring `<script` originating from the
escaped scalar fields `title`, `topic`, `excerpt`, `author`, `date`,
`cover` — the hypothesis pins down the one non-escaped insertion, the
sanitized rich `content`, as contributing no such substring, so the
escaped fields are the only possible origin. -/
theorem generateHTML_no_script_substring
    (fmtDate : String → String) (parse : String → List Node) (a : Article)
    (hc : litSafe (stringSanitizeHTML parse
      (strOr a.content "<p>Konten tidak tersedia.</p>")).data = true) :
    ¬ (scriptPat <:+: (generateCardHTML fmtDate a).data) ∧
      ¬ (scriptPat <:+: (generateDetailHTML fmtDate parse a).data) :=
  ⟨noScriptSub_of_goodChunks _ (goodChunks_card fmtDate a),
   noScriptSub_of_goodChunks _ (goodChunks_detail fmtDate parse a hc)⟩

/-- Witness for C2: every scalar field holds `<script>alert(1)</script>`
raw, and neither rendered markup contains `<script`. -/
theorem generateHTML_no_script_substring_witness :
    ¬ (scriptPat <:+: (generateCardHTML idFmtDate evilArticle).data) ∧
      ¬ (scriptPat <:+: (generateDetailHTML idFmtDate tableParse evilArticle).data) :=
  generateHTML_no_script_substring idFmtDate tableParse evilArticle (by
    have h1 : stringSanitizeHTML tableParse
        (strOr evilArticle.content "<p>Konten tidak tersedia.</p>") = "" := by
      simp [stringSanitizeHTML, sanitizeHTML, tableParse, evilArticle, evilString,
        strOr, removeScripts, stripOnAttrs, serializeNodes]
    rw [h1]
    decide)

set_option maxRecDepth 100000 in
/-- Claim C10 (implicit): the markup returned by `generateDetailHTML`
always contains the literal substring `onclick=` — the print and share
navigation links carry inline event handlers — so the rendered detail page
is never free of `on*` attributes even though the article content itself
is sanitized. -/
theorem generateDetailHTML_always_has_onclick (fmtDate : String → String)
    (parse : String → List Node) (a : Article) :
    "onclick=".data <:+: (generateDetailHTML fmtDate parse a).data := by
  rw [generateDetailHTML]
  have hmem : (" menit\n            </div>\n          </div>\n        </div>\n\n        <div class=\"panel\">\n          <h4>Navigasi</h4>\n          <a href=\"article-list.html\">← Kembali ke daftar</a>\n          <a href=\"#\" onclick=\"window.print(); return false;\">🖨️ Cetak artikel</a>\n          <a href=\"#\"\n             onclick=\"navigator.share?.(\x7btitle: \x27" : String)
      ∈ generateDetailParts fmtDate parse a := by
    rw [generateDetailParts]
    refine List.mem_append.mpr (Or.inr ?_)
    simp
  exact infix_joinStr_of_mem hmem (by decide)

/-- Claim C3 counterexample: with an entry on which `JSON.parse` throws,
`getCachedData` returns absent but the corrupt entry is NOT removed from
storage — the `catch` path returns `null` without calling `removeItem` —
contradicting the claim that every deserialization error purges the
entry. -/
theorem getCachedData_counterexample_corrupt_entry_kept :
    getCachedData 0 (some .unparsable) = (.val .null, some .unparsable) ∧
      (some StoredString.unparsable : CacheState) ≠ (none : CacheState) :=
  ⟨rfl, fun h => Option.noConfusion h⟩

/-- Claim C3 amended: `getCachedData` never raises (it is total) and
returns absent in every non-valid case; the stale entry is removed exactly
when the envelope deserializes and destructures (is not JSON `null`) but
fails the freshness test; when deserialization or destructuring throws
(unparsable text or a JSON `null` envelope) the corrupt entry is left in
storage; a valid entry is returned with storage untouched. -/
theorem getCachedData_fails_soft (now : Int) (j : Json) :
    getCachedData now none = (.val .null, none) ∧
      getCachedData now (some .unparsable) = (.val .null, some .unparsable) ∧
      getCachedData now (some (.parsed .null)) = (.val .null, some (.parsed .null)) ∧
      (j ≠ .null →
        getCachedData now (some (.parsed j)) =
          if jsLtNum (jsSub now (toNumber (getField j "timestamp")))
              CONFIG.cacheDuration
          then (getField j "data", some (.parsed j))
          else (.val .null, none)) := by
  refine ⟨rfl, rfl, rfl, ?_⟩
  intro hne
  cases j with
  | null => exact absurd rfl hne
  | bool b => rfl
  | num n => rfl
  | str s => rfl
  | arr l => rfl
  | obj f => rfl

/-- Witness for the amended C3: an expired envelope is purged. -/
theorem getCachedData_fails_soft_witness :
    getCachedData 301000 (some (.parsed (.obj
      [("data", Json.arr []), ("timestamp", Json.num 0)]))) = (.val .null, none) := by
  rw [(getCachedData_fails_soft 301000 (.obj
      [("data", Json.arr []), ("timestamp", Json.num 0)])).2.2.2
    (fun h => Json.noConfusion h)]
  have hg0 : getField (Json.obj [("data", Json.arr []), ("timestamp", Json.num 0)])
      "timestamp" = JsVal.val (Json.num 0) := rfl
  have htn : toNumber (JsVal.val (Json.num 0)) = JsNum.int 0 := by
    simp [toNumber]
  rw [hg0, htn]
  rfl

/-- Claim C4: writing a collection and reading it back returns an equal
collection exactly while `now - timestamp < cacheDuration` (storage
untouched); once the window has elapsed the read returns absent and purges
the entry, and every subsequent read of the purged store is also absent. -/
theorem cache_write_read_roundtrip (t₀ t₁ t₂ : Int) (C : List Json) :
    getCachedData t₁ (setCachedData t₀ (.arr C)) =
      (if t₁ - t₀ < CONFIG.cacheDuration
       then (.val (.arr C), setCachedData t₀ (.arr C))
       else (.val .null, none)) ∧
      getCachedData t₂ (none : CacheState) = (.val .null, none) :=
  ⟨getCachedData_setCachedData t₀ t₁ (.arr C), rfl⟩

/-- Claim C5: a call that finds a valid cached collection returns it with
zero network retrievals; a call with no prior cache issues exactly one
network retrieval, writes the parsed collection to the cache and returns
it; an immediately following call (within the expiry window) then issues
zero network retrievals and returns the same collection. -/
theorem loadArticles_cache_discipline (net net₂ : FetchResult) (t₀ t₁ t₂ : Int)
    (C C₂ : List Json) (status : Nat)
    (h1 : t₁ - t₀ < CONFIG.cacheDuration) (h2 : t₂ - t₁ < CONFIG.cacheDuration) :
    loadArticles net t₁ (setCachedData t₀ (.arr C)) =
        ⟨.ok (.arr C), setCachedData t₀ (.arr C), 0⟩ ∧
      loadArticles (.success ⟨true, status, .ok (.arr C₂)⟩) t₁ none =
        ⟨.ok (.arr C₂), setCachedData t₁ (.arr C₂), 1⟩ ∧
      loadArticles net₂ t₂ (setCachedData t₁ (.arr C₂)) =
        ⟨.ok (.arr C₂), setCachedData t₁ (.arr C₂), 0⟩ := by
  refine ⟨?_, ?_, ?_⟩
  · unfold loadArticles
    rw [getCachedData_setCachedData, if_pos h1]
    rfl
  · rfl
  · unfold loadArticles
    rw [getCachedData_setCachedData, if_pos h2]
    rfl

/-- Witness for C5 at concrete times and collections. -/
theorem loadArticles_cache_discipline_witness :
    loadArticles (.netError "offline") 1 (setCachedData 0 (.arr [])) =
        ⟨.ok (.arr []), setCachedData 0 (.arr []), 0⟩ ∧
      loadArticles (.success ⟨true, 200, .ok (.arr [])⟩) 1 none =
        ⟨.ok (.arr []), setCachedData 1 (.arr []), 1⟩ ∧
      loadArticles (.netError "offline") 2 (setCachedData 1 (.arr [])) =
        ⟨.ok (.arr []), setCachedData 1 (.arr []), 0⟩ :=
  loadArticles_cache_discipline (.netError "offline") (.netError "offline")
    0 1 2 [] [] 200 (by norm_num [CONFIG]) (by norm_num [CONFIG])

/-- Claim C6: when the cache does not satisfy the call (the guard under
which the retrieval happens at all), `loadArticles` fails exactly when the
network retrieval errors, the response status is non-success, or the body
does not decode to an ordered sequence of records; and every failure is
surfaced as the single wrapped error whose message is
`Gagal memuat data: <cause>` — the original low-level error object is not
re-exposed. -/
theorem loadArticles_failure_characterization (net : FetchResult) (now : Int)
    (st : CacheState) (hmiss : truthy (getCachedData now st).1 = false) :
    isError (loadArticles net now st).result = loadFailCond net ∧
      (∀ m, (loadArticles net now st).result = .error m →
        ∃ cause, m = "Gagal memuat data: " ++ cause) := by
  constructor
  · cases net with
    | netError m => simp [loadArticles, hmiss, isError, loadFailCond]
    | success r =>
      rcases r with ⟨rok, rstatus, rbody⟩
      rcases rbody with m | j
      · cases rok <;> simp [loadArticles, hmiss, isError, loadFailCond]
      · cases rok
        · simp [loadArticles, hmiss, isError, loadFailCond]
        · cases j <;> simp [loadArticles, hmiss, isError, loadFailCond]
  · intro m hm
    cases net with
    | netError mm =>
      simp [loadArticles, hmiss] at hm
      exact ⟨mm, hm.symm⟩
    | success r =>
      rcases r with ⟨rok, rstatus, rbody⟩
      cases rok
      · simp [loadArticles, hmiss] at hm
        exact ⟨"HTTP error! status: " ++ Nat.repr rstatus, hm.symm⟩
      · rcases rbody with mm | j
        · simp [loadArticles, hmiss] at hm
          exact ⟨mm, hm.symm⟩
        · cases j <;> simp [loadArticles, hmiss] at hm <;>
            exact ⟨"Data format invalid: expected array", hm.symm⟩

/-- Witness for C6: a network error with an empty cache is surfaced as a
failure. -/
theorem loadArticles_failure_characterization_witness :
    isError (loadArticles (.netError "offline") 0 none).result =
      loadFailCond (.netError "offline") :=
  (loadArticles_failure_characterization (.netError "offline") 0 none rfl).1

/-- Claim C7: the filter engine returns exactly the articles satisfying
both the topic predicate and the query predicate of the specification, as
a stable filter — the result is the claim-side filter of the collection,
and a sublist of it (original relative order preserved). -/
theorem applyFilters_spec (C : List Article) (topic query : String) :
    applyFilters C topic query = C.filter (visibleSpec topic query) ∧
      List.Sublist (applyFilters C topic query) C := by
  constructor
  · rfl
  · exact List.filter_sublist _

set_option maxRecDepth 100000 in
/-- Claim C8: the reading time is `max 1` of the ceiling of the word count
over the configured words-per-minute, where the word count is the number of
whitespace-delimited tokens after stripping markup and collapsing
whitespace; and concretely, zero visible words give 1 minute, exactly 200
words give 1 minute, and 601 words give 4 minutes. -/
theorem calculateReadingTime_spec (html : String) :
    ((calculateReadingTime html : ℕ) : ℤ) =
        max 1 ⌈(wordCount html : ℚ) / ((CONFIG.wordsPerMinute : ℕ) : ℚ)⌉ ∧
      calculateReadingTime "" = 1 ∧
      calculateReadingTime "<p></p>" = 1 ∧
      calculateReadingTime ⟨repeatWord 200⟩ = 1 ∧
      calculateReadingTime ⟨repeatWord 601⟩ = 4 := by
  refine ⟨?_, by decide, by decide, by decide, by decide⟩
  rw [calculateReadingTime]
  have h200 : CONFIG.wordsPerMinute = 200 := rfl
  rw [h200, Nat.cast_max]
  have h := ceilDiv_eq_rat_ceil (wordCount html) 200 (by norm_num)
  norm_num at h ⊢
  rw [h]

/-- Claim C9: when no article in the (nonempty) loaded collection matches
the requested id, the detail page uses the first article of the collection
as a fallback instead of failing. -/
theorem selectDetailArticle_falls_back_to_first (a₀ : Article)
    (rest : List Article) (i : String) (h : ∀ a ∈ a₀ :: rest, a.id ≠ i) :
    selectDetailArticle (some i) (a₀ :: rest) = .ok a₀ := by
  have hf : (a₀ :: rest).find? (fun a => a.id == i) = none := by
    rw [List.find?_eq_none]
    intro a ha hbeq
    exact h a ha (by simpa using hbeq)
  simp [selectDetailArticle, hf]

/-- Witness for C9: the specification's scenario C — id `zz` absent from
the scenario collection falls back to its first element. -/
theorem selectDetailArticle_falls_back_to_first_witness :
    selectDetailArticle (some "zz") [artA1, artA2] = .ok artA1 :=
  selectDetailArticle_falls_back_to_first artA1 [artA2] "zz" (by decide)

end PPS
